import Mathlib

/-!
Verification of the risk-manager-trader trading gate.

Shallow embedding of the TypeScript sources:
* `src/logic/permissions.ts` (`evaluateGate`, `toNum`, `toBool`),
* `src/db/db.ts` (`getTradeStatsForDay`, `getSetting`, `hasDailyPlan`,
  `hasDailyCloseout`),
* `src/constants/ruleBreaks.ts` (`normalizeRuleBreak`, `parseRuleBreaks`,
  `formatRuleBreaks`),
* the override-activation handlers in `app/(tabs)/explore.tsx` and
  `app/(tabs)/settings.tsx`.

Modelling choices:
* JS numbers are modelled as `ℚ` (the gate logic only adds, negates and
  compares; no rounding behaviour is involved in the verified properties).
* Async storage reads are modelled in the `Except` monad: an awaited
  promise that rejects makes the whole computation return `Except.error`,
  an awaited promise that fulfils continues with its value.
* The reason strings pushed by the gate contain interpolated numbers
  (`toFixed`); they are abstracted to their kind (`Reason`).  The two
  soft-warning codes are pushed as literal strings in the source and are
  kept as literal strings here.
* Wall-clock day-key computation (`getTodayKey` / `getYesterdayKey`) is
  environment input: `evaluateGate` receives the two day keys as
  parameters, exactly as the rest of the body uses them.
-/

namespace RiskGate

/-- App mode: `appModeRaw === "real" ? "real" : "demo"`. -/
inductive Mode where
  | demo : Mode
  | real : Mode
deriving DecidableEq, Repr

/-- Result of `getTradeStatsForDay` (src/db/db.ts, type `TradeStats`). -/
structure TradeStats where
  tradeCount : Nat
  sumR : ℚ
  consecutiveLosses : Nat
  wins : Nat
  winRate : ℚ
  avgR : ℚ
  totalR : ℚ
deriving DecidableEq, Repr

/-- Parsed rule settings (the `settings` object built in `evaluateGate`). -/
structure GateSettings where
  maxTradesPerDay : ℚ
  maxDailyLossR : ℚ
  maxConsecutiveLosses : ℚ
  requireDailyPlan : Bool
  requireDailyCloseout : Bool
deriving DecidableEq, Repr

/-- Hard-limit reason messages, abstracted to their kind (the source pushes
formatted strings with interpolated numbers; the verified claims only
distinguish which limit produced the reason). -/
inductive Reason where
  | maxTradesHit : Reason
  | dailyLossHit : Reason
  | consecLossesHit : Reason
deriving DecidableEq, Repr

/-- The `requirements` field of `GateResult`. -/
structure Requirements where
  planDone : Bool
  closeoutDone : Bool
deriving DecidableEq, Repr

/-- The `GateResult` returned by `evaluateGate`. -/
structure GateResult where
  canTrade : Bool
  reasons : List Reason
  mode : Mode
  overrideActive : Bool
  overrideUntilMs : ℚ
  overrideCooldownUntilMs : ℚ
  softWarnings : List String
  requirements : Requirements
  stats : TradeStats
  settings : GateSettings
deriving DecidableEq, Repr

/-- JS `toBool` from permissions.ts:
`if (v === null) return fallback; return v === "1" || v.toLowerCase() === "true";`. -/
def toBool (v : Option String) (fallback : Bool) : Bool :=
  match v with
  | none => fallback
  | some s => s == "1" || s.toList.map Char.toLower == ("true").toList

/-- Value of a digit character. -/
def digitVal (c : Char) : Nat := c.toNat - 48

/-- Value of a digit string read as a decimal integer. -/
def digitsVal (cs : List Char) : Nat :=
  cs.foldl (fun acc c => 10 * acc + digitVal c) 0

/-- JS `Number(string)` on the decimal fragment: optional sign, then digits
with an optional single decimal point (`"12"`, `"12."`, `".5"`, `"-3.25"`).
Strings outside this fragment (including `"Infinity"`, hex and exponent
forms, which `toNum` would anyway reject or which never occur as stored
settings) are mapped to `none`, the bucket `Number.isFinite` rejects. -/
def parseUnsigned (cs : List Char) : Option ℚ :=
  let intPart := cs.takeWhile Char.isDigit
  let rest := cs.dropWhile Char.isDigit
  match rest with
  | [] => if intPart = [] then none else some (digitsVal intPart : ℚ)
  | c :: frac =>
    if c = '.' ∧ frac.all Char.isDigit ∧ (intPart ≠ [] ∨ frac ≠ []) then
      some ((digitsVal intPart : ℚ) + (digitsVal frac : ℚ) / ((10 : ℚ) ^ frac.length))
    else none

/-- Signed decimal parse. -/
def parseSigned (cs : List Char) : Option ℚ :=
  match cs with
  | '-' :: rest => (parseUnsigned rest).map (fun q => -q)
  | '+' :: rest => parseUnsigned rest
  | _ => parseUnsigned cs

/-- JS `Number(v)` for `v : string | null`, restricted to finite results:
`Number(null) = 0`, a whitespace-only string coerces to `0`, a decimal
literal to its value; anything else is non-finite (`none`). -/
def jsNumber (v : Option String) : Option ℚ :=
  match v with
  | none => some 0
  | some s =>
    let t := ((s.toList.dropWhile Char.isWhitespace).reverse.dropWhile Char.isWhitespace).reverse
    if t = [] then some 0 else parseSigned t

/-- JS `toNum` from permissions.ts:
`const n = Number(v); return Number.isFinite(n) ? n : fallback;`. -/
def toNum (v : Option String) (fallback : ℚ) : ℚ :=
  match jsNumber v with
  | some n => n
  | none => fallback

/-- Storage-error payload (the message of a rejected promise). -/
def Err : Type := String

/-- The storage interface `evaluateGate` reads through (src/db/db.ts).
Each operation may fail, modelling a rejected promise. -/
structure Storage where
  getSetting : String → Except Err (Option String)
  getTradeStatsForDay : String → Except Err TradeStats
  hasDailyPlan : String → Except Err Bool
  hasDailyCloseout : String → Except Err Bool

/-- Shallow embedding of `evaluateGate` (src/logic/permissions.ts).
`Promise.all` of independent reads is sequentialized; a rejected read makes
the whole evaluation reject, matching `await` semantics.  `now` is
`Date.now()`; `todayKey` / `yesterdayKey` are the day keys the source
computes from the wall clock. -/
def evaluateGate (st : Storage) (now : ℚ) (todayKey yesterdayKey : String) :
    Except Err GateResult := do
  let appModeRaw ← st.getSetting ("appMode")
  let overrideUntilRaw ← st.getSetting ("gateOverrideUntil")
  let overrideCooldownRaw ← st.getSetting ("gateOverrideCooldownUntil")
  let mode : Mode := if appModeRaw = some ("real") then Mode.real else Mode.demo
  let overrideUntilMs := toNum overrideUntilRaw 0
  let overrideCooldownUntilMs := toNum overrideCooldownRaw 0
  let overrideActive : Bool := decide (mode = Mode.real) && decide (now < overrideUntilMs)
  let maxTradesPerDayRaw ← st.getSetting ("maxTradesPerDay")
  let maxDailyLossRRaw ← st.getSetting ("maxDailyLossR")
  let maxConsecutiveLossesRaw ← st.getSetting ("maxConsecutiveLosses")
  let requireDailyPlanRaw ← st.getSetting ("requireDailyPlan")
  let requireDailyCloseoutRaw ← st.getSetting ("requireDailyCloseout")
  let settings : GateSettings :=
    { maxTradesPerDay := toNum maxTradesPerDayRaw 3
      maxDailyLossR := toNum maxDailyLossRRaw 2
      maxConsecutiveLosses := toNum maxConsecutiveLossesRaw 2
      requireDailyPlan := toBool requireDailyPlanRaw true
      requireDailyCloseout := toBool requireDailyCloseoutRaw true }
  let stats ← st.getTradeStatsForDay todayKey
  if mode = Mode.demo then
    return { canTrade := true
             reasons := []
             mode := Mode.demo
             overrideActive := false
             overrideUntilMs := 0
             overrideCooldownUntilMs := overrideCooldownUntilMs
             softWarnings := []
             requirements := { planDone := true, closeoutDone := true }
             stats := stats
             settings := settings }
  else
    let planDone ← if settings.requireDailyPlan then st.hasDailyPlan todayKey
                   else pure true
    let closeoutDone ← if settings.requireDailyCloseout then st.hasDailyCloseout yesterdayKey
                       else pure true
    let softWarnings : List String :=
      (if planDone = false ∧ settings.requireDailyPlan then ["PLAN_MISSING"] else []) ++
      (if closeoutDone = false ∧ settings.requireDailyCloseout then ["CLOSEOUT_MISSING"] else [])
    let reasons : List Reason :=
      (if 0 < settings.maxTradesPerDay ∧ settings.maxTradesPerDay ≤ (stats.tradeCount : ℚ)
        then [Reason.maxTradesHit] else []) ++
      (if 0 < settings.maxDailyLossR ∧ stats.sumR ≤ -settings.maxDailyLossR
        then [Reason.dailyLossHit] else []) ++
      (if 0 < settings.maxConsecutiveLosses ∧
          settings.maxConsecutiveLosses ≤ (stats.consecutiveLosses : ℚ)
        then [Reason.consecLossesHit] else [])
    let canTrade : Bool := if overrideActive then true else decide (reasons.length = 0)
    return { canTrade := canTrade
             reasons := reasons
             mode := mode
             overrideActive := overrideActive
             overrideUntilMs := overrideUntilMs
             overrideCooldownUntilMs := overrideCooldownUntilMs
             softWarnings := softWarnings
             requirements := { planDone := planDone, closeoutDone := closeoutDone }
             stats := stats
             settings := settings }

/-- The eight settings keys `evaluateGate` reads, in read order. -/
def gateSettingKeys : List String :=
  ["appMode", "gateOverrideUntil", "gateOverrideCooldownUntil", "maxTradesPerDay",
   "maxDailyLossR", "maxConsecutiveLosses", "requireDailyPlan", "requireDailyCloseout"]

/-- A concrete database state for non-failing runs: the stored value of each
settings key read by the gate, the per-day trade stats, and per-day presence
of plan / closeout rows. -/
structure GateEnv where
  appModeRaw : Option String
  overrideUntilRaw : Option String
  overrideCooldownRaw : Option String
  maxTradesRaw : Option String
  maxLossRaw : Option String
  maxConsecRaw : Option String
  reqPlanRaw : Option String
  reqCloseoutRaw : Option String
  stats : String → TradeStats
  planExists : String → Bool
  closeoutExists : String → Bool

/-- Settings-table lookup for a `GateEnv` (the `settings` table keyed by
string, as read by `getSetting`). -/
def envLookup (env : GateEnv) (k : String) : Option String :=
  if k = "appMode" then env.appModeRaw
  else if k = "gateOverrideUntil" then env.overrideUntilRaw
  else if k = "gateOverrideCooldownUntil" then env.overrideCooldownRaw
  else if k = "maxTradesPerDay" then env.maxTradesRaw
  else if k = "maxDailyLossR" then env.maxLossRaw
  else if k = "maxConsecutiveLosses" then env.maxConsecRaw
  else if k = "requireDailyPlan" then env.reqPlanRaw
  else if k = "requireDailyCloseout" then env.reqCloseoutRaw
  else none

/-- Storage over a concrete `GateEnv` whose settings and stats reads always
succeed, with arbitrary (possibly failing) plan/closeout lookups `pf` and
`cf`. -/
def mkStorage (env : GateEnv) (pf cf : String → Except Err Bool) : Storage where
  getSetting := fun k => Except.ok (envLookup env k)
  getTradeStatsForDay := fun k => Except.ok (env.stats k)
  hasDailyPlan := pf
  hasDailyCloseout := cf

/-- Storage over a concrete `GateEnv` where every read succeeds. -/
def okStorage (env : GateEnv) : Storage :=
  mkStorage env (fun k => Except.ok (env.planExists k))
    (fun k => Except.ok (env.closeoutExists k))

/-- Parsed settings object for an environment, as `evaluateGate` builds it. -/
def gateSettingsOf (env : GateEnv) : GateSettings :=
  { maxTradesPerDay := toNum env.maxTradesRaw 3
    maxDailyLossR := toNum env.maxLossRaw 2
    maxConsecutiveLosses := toNum env.maxConsecRaw 2
    requireDailyPlan := toBool env.reqPlanRaw true
    requireDailyCloseout := toBool env.reqCloseoutRaw true }

/-- Mode computed from an environment. -/
def modeOf (env : GateEnv) : Mode :=
  if env.appModeRaw = some ("real") then Mode.real else Mode.demo

/-- Pure value of a non-failing gate evaluation over `env` (derived form of
`evaluateGate` used to state and prove its properties). -/
def gateSpec (env : GateEnv) (now : ℚ) (todayKey yesterdayKey : String) : GateResult :=
  let mode := modeOf env
  let overrideUntilMs := toNum env.overrideUntilRaw 0
  let overrideCooldownUntilMs := toNum env.overrideCooldownRaw 0
  let overrideActive : Bool := decide (mode = Mode.real) && decide (now < overrideUntilMs)
  let settings := gateSettingsOf env
  let stats := env.stats todayKey
  if mode = Mode.demo then
    { canTrade := true
      reasons := []
      mode := Mode.demo
      overrideActive := false
      overrideUntilMs := 0
      overrideCooldownUntilMs := overrideCooldownUntilMs
      softWarnings := []
      requirements := { planDone := true, closeoutDone := true }
      stats := stats
      settings := settings }
  else
    let planDone := if settings.requireDailyPlan then env.planExists todayKey else true
    let closeoutDone := if settings.requireDailyCloseout then env.closeoutExists yesterdayKey
                        else true
    let softWarnings : List String :=
      (if planDone = false ∧ settings.requireDailyPlan then ["PLAN_MISSING"] else []) ++
      (if closeoutDone = false ∧ settings.requireDailyCloseout then ["CLOSEOUT_MISSING"] else [])
    let reasons : List Reason :=
      (if 0 < settings.maxTradesPerDay ∧ settings.maxTradesPerDay ≤ (stats.tradeCount : ℚ)
        then [Reason.maxTradesHit] else []) ++
      (if 0 < settings.maxDailyLossR ∧ stats.sumR ≤ -settings.maxDailyLossR
        then [Reason.dailyLossHit] else []) ++
      (if 0 < settings.maxConsecutiveLosses ∧
          settings.maxConsecutiveLosses ≤ (stats.consecutiveLosses : ℚ)
        then [Reason.consecLossesHit] else [])
    let canTrade : Bool := if overrideActive then true else decide (reasons.length = 0)
    { canTrade := canTrade
      reasons := reasons
      mode := mode
      overrideActive := overrideActive
      overrideUntilMs := overrideUntilMs
      overrideCooldownUntilMs := overrideCooldownUntilMs
      softWarnings := softWarnings
      requirements := { planDone := planDone, closeoutDone := closeoutDone }
      stats := stats
      settings := settings }

/-- The two override timestamps stored in settings (ms since epoch). -/
structure OverrideState where
  gateOverrideUntil : ℚ
  gateOverrideCooldownUntil : ℚ
deriving DecidableEq, Repr

/-- One hour in milliseconds (`60 * 60 * 1000`). -/
def hourMs : ℚ := 3600000

/-- Twenty-four hours in milliseconds (`24 * 60 * 60 * 1000`). -/
def dayMs : ℚ := 86400000

/-- Override activation flow: the handlers `activateOverride`
(app/(tabs)/explore.tsx) and `enableOverride1h` (app/(tabs)/settings.tsx).
Both buttons are disabled (settings.tsx additionally hides the control)
unless the mode is real, and both handlers start with
`if (now < cooldownUntil) return;`, a silent no-op.  A permitted press sets
`gateOverrideUntil = now + 1h` and `gateOverrideCooldownUntil = now + 24h`. -/
def activateOverride (mode : Mode) (st : OverrideState) (now : ℚ) : OverrideState :=
  if mode ≠ Mode.real then st
  else if now < st.gateOverrideCooldownUntil then st
  else { gateOverrideUntil := now + hourMs
         gateOverrideCooldownUntil := now + dayMs }

/-- A row of the `trades` table as far as the stats query reads it. -/
structure Trade where
  createdAt : Int
  resultR : ℚ
deriving DecidableEq, Repr

/-- SQL window predicate `created_at >= startMs AND created_at < endMs`. -/
def inWindow (startMs endMs : Int) (t : Trade) : Bool :=
  decide (startMs ≤ t.createdAt) && decide (t.createdAt < endMs)

/-- SQL `ORDER BY created_at DESC` (any stable comparison sort; an
insertion sort is used so concrete runs reduce definitionally). -/
def sortByCreatedDesc (l : List Trade) : List Trade :=
  l.insertionSort (fun a b => b.createdAt ≤ a.createdAt)

/-- Shallow embedding of `getTradeStatsForDay` (src/db/db.ts): the totals
query computes `COUNT(*)`, `COALESCE(SUM(result_r),0)`, the number of rows
with `result_r > 0` and `COALESCE(AVG(result_r),0)` over the day window; a
second query takes the 50 most recent rows in descending creation order and
the streak loop counts leading negative results.  The day window
`[startMs, endMs)` is the pair `getDayStartEndMs` derives from the local
calendar day. -/
def getTradeStatsForDay (db : List Trade) (startMs endMs : Int) : TradeStats :=
  let dayTrades := db.filter (inWindow startMs endMs)
  let c := dayTrades.length
  let s := (dayTrades.map Trade.resultR).sum
  let wins := (dayTrades.filter (fun t => decide (0 < t.resultR))).length
  let avgR := if 0 < c then s / (c : ℚ) else 0
  let rows := (sortByCreatedDesc dayTrades).take 50
  let streak := (rows.takeWhile (fun t => decide (t.resultR < 0))).length
  let winRate := if 0 < c then (wins : ℚ) / (c : ℚ) else 0
  { tradeCount := c
    sumR := s
    consecutiveLosses := streak
    wins := wins
    winRate := winRate
    avgR := avgR
    totalR := s }

end RiskGate

namespace RuleBreaks

/-- The closed enumeration of rule-break codes
(src/constants/ruleBreaks.ts, type `RuleBreakCode`). -/
inductive RuleBreakCode where
  | PLAN_MISSING
  | CLOSEOUT_MISSING
  | MAX_TRADES_HIT
  | MAX_DAILY_LOSS_HIT
  | CONSEC_LOSSES_HIT
  | OVERRIDE_USED
  | TRADE_BLOCKED_GATE
  | INVALID_RISK_INPUT
  | OTHER
deriving DecidableEq, Repr

open RuleBreakCode

/-- The stored spelling of each code (the TS string literal).  JS strings are
modelled as `List Char` so that split/join admit direct induction. -/
def codeStr : RuleBreakCode → List Char
  | PLAN_MISSING => ("PLAN_MISSING").toList
  | CLOSEOUT_MISSING => ("CLOSEOUT_MISSING").toList
  | MAX_TRADES_HIT => ("MAX_TRADES_HIT").toList
  | MAX_DAILY_LOSS_HIT => ("MAX_DAILY_LOSS_HIT").toList
  | CONSEC_LOSSES_HIT => ("CONSEC_LOSSES_HIT").toList
  | OVERRIDE_USED => ("OVERRIDE_USED").toList
  | TRADE_BLOCKED_GATE => ("TRADE_BLOCKED_GATE").toList
  | INVALID_RISK_INPUT => ("INVALID_RISK_INPUT").toList
  | OTHER => ("OTHER").toList

/-- JS `String.prototype.trim`. -/
def trimChars (s : List Char) : List Char :=
  ((s.dropWhile Char.isWhitespace).reverse.dropWhile Char.isWhitespace).reverse

/-- JS `toUpperCase` (ASCII, which covers every stored code). -/
def upperChars (s : List Char) : List Char :=
  s.map Char.toUpper

/-- Key lookup in `RULE_BREAK_LABELS` (`if (RULE_BREAK_LABELS[up]) return up`):
an exact match against one of the nine canonical spellings. -/
def directMatch (up : List Char) : Option RuleBreakCode :=
  if up = codeStr PLAN_MISSING then some PLAN_MISSING
  else if up = codeStr CLOSEOUT_MISSING then some CLOSEOUT_MISSING
  else if up = codeStr MAX_TRADES_HIT then some MAX_TRADES_HIT
  else if up = codeStr MAX_DAILY_LOSS_HIT then some MAX_DAILY_LOSS_HIT
  else if up = codeStr CONSEC_LOSSES_HIT then some CONSEC_LOSSES_HIT
  else if up = codeStr OVERRIDE_USED then some OVERRIDE_USED
  else if up = codeStr TRADE_BLOCKED_GATE then some TRADE_BLOCKED_GATE
  else if up = codeStr INVALID_RISK_INPUT then some INVALID_RISK_INPUT
  else if up = codeStr OTHER then some OTHER
  else none

/-- The legacy-spelling table `NORMALIZE_MAP`. -/
def normalizeMap (up : List Char) : Option RuleBreakCode :=
  if up = ("PLAN_MISS").toList then some PLAN_MISSING
  else if up = ("PLAN_REQUIRED").toList then some PLAN_MISSING
  else if up = ("CLOSEOUT_REQUIRED").toList then some CLOSEOUT_MISSING
  else if up = ("DAILY_CLOSEOUT_MISSING").toList then some CLOSEOUT_MISSING
  else if up = ("MAX_TRADES").toList then some MAX_TRADES_HIT
  else if up = ("MAX_DAILY_LOSS").toList then some MAX_DAILY_LOSS_HIT
  else if up = ("CONSECUTIVE_LOSSES").toList then some CONSEC_LOSSES_HIT
  else if up = ("OVERRIDE").toList then some OVERRIDE_USED
  else if up = ("OVERRIDE_ACTIVE").toList then some OVERRIDE_USED
  else none

/-- Shallow embedding of `normalizeRuleBreak`. -/
def normalizeRuleBreak (codeRaw : List Char) : RuleBreakCode :=
  let c := trimChars codeRaw
  if c = [] then OTHER
  else
    let up := upperChars c
    match directMatch up with
    | some code => code
    | none =>
      match normalizeMap up with
      | some code => code
      | none => OTHER

/-- JS `csv.split(",")` on the character list. -/
def splitOnComma : List Char → List (List Char)
  | [] => [[]]
  | c :: cs =>
    if c = ',' then [] :: splitOnComma cs
    else
      match splitOnComma cs with
      | [] => [[c]]
      | p :: ps => (c :: p) :: ps

/-- JS `parts.join(",")`. -/
def joinComma : List (List Char) → List Char
  | [] => []
  | [x] => x
  | x :: xs => x ++ ',' :: joinComma xs

/-- The de-duplication loop of `parseRuleBreaks` / `formatRuleBreaks`
(`seen : Set`, keep first occurrence, preserve order). -/
def dedupeLoop {α : Type} [DecidableEq α] (seen : List α) : List α → List α
  | [] => []
  | a :: rest =>
    if a ∈ seen then dedupeLoop seen rest
    else a :: dedupeLoop (a :: seen) rest

/-- De-duplication keeping the first occurrence of each element. -/
def dedupFirst {α : Type} [DecidableEq α] (l : List α) : List α :=
  dedupeLoop [] l

/-- Shallow embedding of `parseRuleBreaks`; `none` is a null/undefined CSV
and the falsiness test `if (!csv)` also catches the empty string. -/
def parseRuleBreaks (csv : Option (List Char)) : List RuleBreakCode :=
  match csv with
  | none => []
  | some s =>
    if s = [] then []
    else
      let parts := ((splitOnComma s).map trimChars).filter (fun p => p ≠ [])
      dedupFirst (parts.map normalizeRuleBreak)

/-- Shallow embedding of `formatRuleBreaks`: normalize each code, de-dupe,
join with commas. -/
def formatRuleBreaks (codes : List RuleBreakCode) : List Char :=
  joinComma ((dedupFirst (codes.map (fun c => normalizeRuleBreak (codeStr c)))).map codeStr)

end RuleBreaks

namespace RiskGate

theorem mkStorage_getSetting (env : GateEnv) (pf cf : String → Except Err Bool) (k : String) :
    (mkStorage env pf cf).getSetting k = Except.ok (envLookup env k) := rfl

theorem mkStorage_stats (env : GateEnv) (pf cf : String → Except Err Bool) (k : String) :
    (mkStorage env pf cf).getTradeStatsForDay k = Except.ok (env.stats k) := rfl

/-- Bridge lemma: over a storage whose settings/stats reads succeed and whose
plan/closeout lookups succeed with the environment's values, `evaluateGate`
returns exactly the pure `gateSpec` value. -/
theorem evaluateGate_okStorage (env : GateEnv) (now : ℚ) (t y : String) :
    evaluateGate (okStorage env) now t y = Except.ok (gateSpec env now t y) := by
  by_cases hm : env.appModeRaw = some ("real") <;>
    by_cases hp : toBool env.reqPlanRaw true <;>
      by_cases hc : toBool env.reqCloseoutRaw true <;>
        simp [evaluateGate, gateSpec, okStorage, mkStorage, envLookup, gateSettingsOf,
          modeOf, hm, hp, hc, bind, Except.bind, pure, Except.pure]

/-- C5: override activation is permitted only in real mode and outside the
cooldown window; a permitted activation sets `gateOverrideUntil = now + 1h`
and `gateOverrideCooldownUntil = now + 24h`, both from the activation moment;
an attempt during cooldown (or outside real mode) is a silent no-op that
changes neither timestamp and raises no error. -/
theorem activateOverride_spec (mode : Mode) (st : OverrideState) (now : ℚ) :
    (mode = Mode.real → ¬now < st.gateOverrideCooldownUntil →
      activateOverride mode st now =
        { gateOverrideUntil := now + hourMs, gateOverrideCooldownUntil := now + dayMs }) ∧
    (now < st.gateOverrideCooldownUntil → activateOverride mode st now = st) ∧
    (mode ≠ Mode.real → activateOverride mode st now = st) := by
  refine ⟨fun hm hc => ?_, fun hc => ?_, fun hm => ?_⟩
  · simp [activateOverride, hm, hc]
  · cases mode <;> simp [activateOverride, hc]
  · simp [activateOverride, hm]

theorem activateOverride_spec_witness :
    activateOverride Mode.real ⟨0, 5⟩ 10 =
      { gateOverrideUntil := 10 + hourMs, gateOverrideCooldownUntil := 10 + dayMs } ∧
    activateOverride Mode.real ⟨0, 5⟩ 3 = ⟨0, 5⟩ ∧
    activateOverride Mode.demo ⟨0, 5⟩ 10 = ⟨0, 5⟩ :=
  ⟨(activateOverride_spec Mode.real ⟨0, 5⟩ 10).1 rfl (by norm_num),
   (activateOverride_spec Mode.real ⟨0, 5⟩ 3).2.1 (by norm_num),
   (activateOverride_spec Mode.demo ⟨0, 5⟩ 10).2.2 (by decide)⟩

/-- C2: with `appMode` unset or any string other than exactly `"real"`, the
gate short-circuits to fully permitted: mode `demo`, `canTrade = true`, empty
reasons and soft warnings, `overrideActive = false`, both requirements
reported done, with today's stats still computed and the real-mode limit
settings echoed. -/
theorem demo_mode_bypass (env : GateEnv) (now : ℚ) (t y : String)
    (hm : env.appModeRaw ≠ some ("real")) :
    evaluateGate (okStorage env) now t y =
      Except.ok
        { canTrade := true
          reasons := []
          mode := Mode.demo
          overrideActive := false
          overrideUntilMs := 0
          overrideCooldownUntilMs := toNum env.overrideCooldownRaw 0
          softWarnings := []
          requirements := { planDone := true, closeoutDone := true }
          stats := env.stats t
          settings := gateSettingsOf env } := by
  rw [evaluateGate_okStorage]
  unfold gateSpec modeOf
  simp [hm]

/-- Demo-mode environment for the C2 witness: `appMode` unset, all limit and
requirement settings populated, a losing day of stats. -/
def envDemoW : GateEnv :=
  { appModeRaw := none
    overrideUntilRaw := some ("99")
    overrideCooldownRaw := some ("7")
    maxTradesRaw := some ("3")
    maxLossRaw := some ("2")
    maxConsecRaw := some ("2")
    reqPlanRaw := some ("1")
    reqCloseoutRaw := some ("1")
    stats := fun _ => { tradeCount := 9, sumR := -5, consecutiveLosses := 9,
                        wins := 0, winRate := 0, avgR := -5 / 9, totalR := -5 }
    planExists := fun _ => false
    closeoutExists := fun _ => false }

theorem demo_mode_bypass_witness :
    evaluateGate (okStorage envDemoW) 50 ("2025-01-02") ("2025-01-01") =
      Except.ok
        { canTrade := true
          reasons := []
          mode := Mode.demo
          overrideActive := false
          overrideUntilMs := 0
          overrideCooldownUntilMs := toNum envDemoW.overrideCooldownRaw 0
          softWarnings := []
          requirements := { planDone := true, closeoutDone := true }
          stats := envDemoW.stats ("2025-01-02")
          settings := gateSettingsOf envDemoW } :=
  demo_mode_bypass envDemoW 50 ("2025-01-02") ("2025-01-01") (by decide)

/-- Environment demonstrating the C4 defaulting bug: real mode with all three
numeric limit settings unset and a day that would violate every documented
default (9 trades, -5R, 9 consecutive losses). -/
def envUnsetLimits : GateEnv :=
  { appModeRaw := some ("real")
    overrideUntilRaw := none
    overrideCooldownRaw := none
    maxTradesRaw := none
    maxLossRaw := none
    maxConsecRaw := none
    reqPlanRaw := some ("0")
    reqCloseoutRaw := some ("0")
    stats := fun _ => { tradeCount := 9, sumR := -5, consecutiveLosses := 9,
                        wins := 0, winRate := 0, avgR := -5 / 9, totalR := -5 }
    planExists := fun _ => true
    closeoutExists := fun _ => true }

/-- C4 (refuting the claim, exhibiting the code bug): `toNum` only falls back
when `Number(v)` is non-finite, but JS coerces `null` (an unset setting) and
the empty string to `0`, which is finite.  So an unset limit yields `0` —
rule disabled — not the documented default.  In real mode with all limits
unset and stats violating every documented default, the gate still returns
`canTrade = true` with all three limits parsed as `0`. -/
theorem toNum_unset_limit_is_zero :
    toNum none 3 = 0 ∧ toNum none 2 = 0 ∧
    toNum (some ("")) 3 = 0 ∧ toNum (some ("  ")) 3 = 0 ∧
    toNum (some ("abc")) 3 = 3 ∧
    (∃ r : GateResult,
      evaluateGate (okStorage envUnsetLimits) 100 ("2025-01-02") ("2025-01-01") = Except.ok r ∧
      r.mode = Mode.real ∧ r.overrideActive = false ∧
      r.settings.maxTradesPerDay = 0 ∧ r.settings.maxDailyLossR = 0 ∧
      r.settings.maxConsecutiveLosses = 0 ∧
      r.stats.tradeCount = 9 ∧ r.stats.sumR = -5 ∧ r.stats.consecutiveLosses = 9 ∧
      r.reasons = [] ∧ r.canTrade = true) := by
  refine ⟨by decide, by decide, by decide, by decide, by decide,
    ⟨gateSpec envUnsetLimits 100 ("2025-01-02") ("2025-01-01"),
      evaluateGate_okStorage envUnsetLimits 100 ("2025-01-02") ("2025-01-01"), ?_⟩⟩
  decide

/-- C1: `overrideActive` is true exactly when the mode is real and `now` is
strictly before the stored `gateOverrideUntil` timestamp, and
`canTrade = overrideActive OR reasons = []`; so an active override bypasses
the hard limits, while an expired override or demo mode's flag never does. -/
theorem canTrade_override_rule (env : GateEnv) (now : ℚ) (t y : String) (r : GateResult)
    (h : evaluateGate (okStorage env) now t y = Except.ok r) :
    (r.overrideActive = true ↔ (r.mode = Mode.real ∧ now < toNum env.overrideUntilRaw 0)) ∧
    r.canTrade = (r.overrideActive || decide (r.reasons = [])) := by
  rw [evaluateGate_okStorage] at h
  injection h with h
  subst h
  by_cases hm : env.appModeRaw = some ("real")
  · by_cases ho : now < toNum env.overrideUntilRaw 0 <;>
      simp [gateSpec, modeOf, hm, ho, List.length_eq_zero]
  · simp [gateSpec, modeOf, hm]

/-- Real-mode environment with an active override window for the C1 witness. -/
def envRealOverride : GateEnv :=
  { appModeRaw := some ("real")
    overrideUntilRaw := some ("200")
    overrideCooldownRaw := some ("900")
    maxTradesRaw := some ("3")
    maxLossRaw := some ("2")
    maxConsecRaw := some ("2")
    reqPlanRaw := some ("1")
    reqCloseoutRaw := some ("1")
    stats := fun _ => { tradeCount := 9, sumR := -5, consecutiveLosses := 9,
                        wins := 0, winRate := 0, avgR := -5 / 9, totalR := -5 }
    planExists := fun _ => true
    closeoutExists := fun _ => true }

theorem canTrade_override_rule_witness :
    ((gateSpec envRealOverride 100 ("2025-01-02") ("2025-01-01")).overrideActive = true ↔
      ((gateSpec envRealOverride 100 ("2025-01-02") ("2025-01-01")).mode = Mode.real ∧
        (100 : ℚ) < toNum envRealOverride.overrideUntilRaw 0)) ∧
    (gateSpec envRealOverride 100 ("2025-01-02") ("2025-01-01")).canTrade =
      ((gateSpec envRealOverride 100 ("2025-01-02") ("2025-01-01")).overrideActive ||
        decide ((gateSpec envRealOverride 100 ("2025-01-02") ("2025-01-01")).reasons = [])) :=
  canTrade_override_rule envRealOverride 100 ("2025-01-02") ("2025-01-01")
    (gateSpec envRealOverride 100 ("2025-01-02") ("2025-01-01"))
    (evaluateGate_okStorage envRealOverride 100 ("2025-01-02") ("2025-01-01"))

/-- C3: in real mode the three hard limits are evaluated independently, one
reason per violated limit: a trades reason exactly when
`maxTradesPerDay > 0 ∧ tradeCount ≥ maxTradesPerDay`, a daily-loss reason
exactly when `maxDailyLossR > 0 ∧ sumR ≤ -maxDailyLossR` (inclusive
boundary), a streak reason exactly when
`maxConsecutiveLosses > 0 ∧ consecutiveLosses ≥ maxConsecutiveLosses`; a
limit `≤ 0` disables its check. -/
theorem hard_limit_reasons (env : GateEnv) (now : ℚ) (t y : String) (r : GateResult)
    (h : evaluateGate (okStorage env) now t y = Except.ok r)
    (hm : env.appModeRaw = some ("real")) :
    r.reasons.count Reason.maxTradesHit =
      (if 0 < r.settings.maxTradesPerDay ∧
          r.settings.maxTradesPerDay ≤ (r.stats.tradeCount : ℚ) then 1 else 0) ∧
    r.reasons.count Reason.dailyLossHit =
      (if 0 < r.settings.maxDailyLossR ∧
          r.stats.sumR ≤ -r.settings.maxDailyLossR then 1 else 0) ∧
    r.reasons.count Reason.consecLossesHit =
      (if 0 < r.settings.maxConsecutiveLosses ∧
          r.settings.maxConsecutiveLosses ≤ (r.stats.consecutiveLosses : ℚ) then 1 else 0) := by
  rw [evaluateGate_okStorage] at h
  injection h with h
  subst h
  by_cases h1 : 0 < (gateSettingsOf env).maxTradesPerDay ∧
      (gateSettingsOf env).maxTradesPerDay ≤ ((env.stats t).tradeCount : ℚ) <;>
    by_cases h2 : 0 < (gateSettingsOf env).maxDailyLossR ∧
        (env.stats t).sumR ≤ -(gateSettingsOf env).maxDailyLossR <;>
      by_cases h3 : 0 < (gateSettingsOf env).maxConsecutiveLosses ∧
          (gateSettingsOf env).maxConsecutiveLosses ≤ ((env.stats t).consecutiveLosses : ℚ) <;>
        simp [gateSpec, modeOf, hm, h1, h2, h3, List.count_cons, List.count_nil]

theorem hard_limit_reasons_witness :
    (gateSpec envRealOverride 1000 ("2025-01-02") ("2025-01-01")).reasons.count
        Reason.maxTradesHit =
      (if 0 < (gateSpec envRealOverride 1000 ("2025-01-02") ("2025-01-01")).settings.maxTradesPerDay ∧
          (gateSpec envRealOverride 1000 ("2025-01-02") ("2025-01-01")).settings.maxTradesPerDay ≤
            ((gateSpec envRealOverride 1000 ("2025-01-02") ("2025-01-01")).stats.tradeCount : ℚ)
        then 1 else 0) ∧
    (gateSpec envRealOverride 1000 ("2025-01-02") ("2025-01-01")).reasons.count
        Reason.dailyLossHit =
      (if 0 < (gateSpec envRealOverride 1000 ("2025-01-02") ("2025-01-01")).settings.maxDailyLossR ∧
          (gateSpec envRealOverride 1000 ("2025-01-02") ("2025-01-01")).stats.sumR ≤
            -(gateSpec envRealOverride 1000 ("2025-01-02") ("2025-01-01")).settings.maxDailyLossR
        then 1 else 0) ∧
    (gateSpec envRealOverride 1000 ("2025-01-02") ("2025-01-01")).reasons.count
        Reason.consecLossesHit =
      (if 0 < (gateSpec envRealOverride 1000 ("2025-01-02") ("2025-01-01")).settings.maxConsecutiveLosses ∧
          (gateSpec envRealOverride 1000 ("2025-01-02") ("2025-01-01")).settings.maxConsecutiveLosses ≤
            ((gateSpec envRealOverride 1000 ("2025-01-02") ("2025-01-01")).stats.consecutiveLosses : ℚ)
        then 1 else 0) :=
  hard_limit_reasons envRealOverride 1000 ("2025-01-02") ("2025-01-01")
    (gateSpec envRealOverride 1000 ("2025-01-02") ("2025-01-01"))
    (evaluateGate_okStorage envRealOverride 1000 ("2025-01-02") ("2025-01-01")) (by decide)

/-- C6: in real mode, `PLAN_MISSING` is in `softWarnings` exactly when
`requireDailyPlan` is set and no plan row exists for today's key, and
`CLOSEOUT_MISSING` exactly when `requireDailyCloseout` is set and no
closeout row exists for yesterday's key; soft warnings only ever contain
these two codes (reasons carry only hard-limit entries, of the separate
`Reason` type), and changing plan/closeout presence never changes
`canTrade`. -/
theorem soft_warning_codes (env : GateEnv) (now : ℚ) (t y : String) (r : GateResult)
    (h : evaluateGate (okStorage env) now t y = Except.ok r)
    (hm : env.appModeRaw = some ("real")) :
    (("PLAN_MISSING") ∈ r.softWarnings ↔
      (r.settings.requireDailyPlan = true ∧ env.planExists t = false)) ∧
    (("CLOSEOUT_MISSING") ∈ r.softWarnings ↔
      (r.settings.requireDailyCloseout = true ∧ env.closeoutExists y = false)) ∧
    (∀ w ∈ r.softWarnings, w = "PLAN_MISSING" ∨ w = "CLOSEOUT_MISSING") ∧
    (∀ p c : String → Bool, ∀ r2 : GateResult,
      evaluateGate (okStorage { env with planExists := p, closeoutExists := c }) now t y =
        Except.ok r2 → r2.canTrade = r.canTrade) := by
  rw [evaluateGate_okStorage] at h
  injection h with h
  subst h
  refine ⟨?_, ?_, ?_, ?_⟩
  · by_cases hp : toBool env.reqPlanRaw true <;>
      by_cases hpe : env.planExists t <;>
        simp [gateSpec, modeOf, gateSettingsOf, hm, hp, hpe]
  · by_cases hc : toBool env.reqCloseoutRaw true <;>
      by_cases hce : env.closeoutExists y <;>
        by_cases hp : toBool env.reqPlanRaw true <;>
          by_cases hpe : env.planExists t <;>
            simp [gateSpec, modeOf, gateSettingsOf, hm, hc, hce, hp, hpe]
  · intro w hw
    by_cases hc : toBool env.reqCloseoutRaw true <;>
      by_cases hce : env.closeoutExists y <;>
        by_cases hp : toBool env.reqPlanRaw true <;>
          by_cases hpe : env.planExists t <;>
            simp [gateSpec, modeOf, gateSettingsOf, hm, hc, hce, hp, hpe] at hw <;>
              simp [hw]
  · intro p c r2 h2
    rw [evaluateGate_okStorage] at h2
    injection h2 with h2
    subst h2
    simp [gateSpec, modeOf, gateSettingsOf, hm]

/-- Real-mode environment with the plan requirement unmet and the closeout
requirement met, for the C6 witness. -/
def envRealSoft : GateEnv :=
  { appModeRaw := some ("real")
    overrideUntilRaw := some ("0")
    overrideCooldownRaw := some ("0")
    maxTradesRaw := some ("3")
    maxLossRaw := some ("2")
    maxConsecRaw := some ("2")
    reqPlanRaw := some ("1")
    reqCloseoutRaw := some ("1")
    stats := fun _ => { tradeCount := 1, sumR := 1, consecutiveLosses := 0,
                        wins := 1, winRate := 1, avgR := 1, totalR := 1 }
    planExists := fun _ => false
    closeoutExists := fun _ => true }

theorem soft_warning_codes_witness :
    (("PLAN_MISSING") ∈ (gateSpec envRealSoft 9 ("2025-01-02") ("2025-01-01")).softWarnings ↔
      ((gateSpec envRealSoft 9 ("2025-01-02") ("2025-01-01")).settings.requireDailyPlan = true ∧
        envRealSoft.planExists ("2025-01-02") = false)) ∧
    (("CLOSEOUT_MISSING") ∈ (gateSpec envRealSoft 9 ("2025-01-02") ("2025-01-01")).softWarnings ↔
      ((gateSpec envRealSoft 9 ("2025-01-02") ("2025-01-01")).settings.requireDailyCloseout = true ∧
        envRealSoft.closeoutExists ("2025-01-01") = false)) :=
  ⟨(soft_warning_codes envRealSoft 9 ("2025-01-02") ("2025-01-01")
      (gateSpec envRealSoft 9 ("2025-01-02") ("2025-01-01"))
      (evaluateGate_okStorage envRealSoft 9 ("2025-01-02") ("2025-01-01")) (by decide)).1,
   (soft_warning_codes envRealSoft 9 ("2025-01-02") ("2025-01-01"))
      (gateSpec envRealSoft 9 ("2025-01-02") ("2025-01-01"))
      (evaluateGate_okStorage envRealSoft 9 ("2025-01-02") ("2025-01-01")) (by decide) |>.2.1⟩

/-- C10: when a `require*` flag is false the corresponding requirement field
is reported true without storage being consulted at all (the evaluation does
not depend on the plan/closeout lookup function, even a failing one), and in
demo mode both requirement fields are reported true unconditionally. -/
theorem requirements_reflect_flags (env : GateEnv) (pf pf2 cf cf2 : String → Except Err Bool)
    (now : ℚ) (t y : String) :
    (toBool env.reqPlanRaw true = false →
      evaluateGate (mkStorage env pf cf) now t y = evaluateGate (mkStorage env pf2 cf) now t y ∧
      ∀ r : GateResult, evaluateGate (mkStorage env pf cf) now t y = Except.ok r →
        r.requirements.planDone = true) ∧
    (toBool env.reqCloseoutRaw true = false →
      evaluateGate (mkStorage env pf cf) now t y = evaluateGate (mkStorage env pf cf2) now t y ∧
      ∀ r : GateResult, evaluateGate (mkStorage env pf cf) now t y = Except.ok r →
        r.requirements.closeoutDone = true) ∧
    (env.appModeRaw ≠ some ("real") →
      ∀ r : GateResult, evaluateGate (mkStorage env pf cf) now t y = Except.ok r →
        r.requirements = { planDone := true, closeoutDone := true }) := by
  refine ⟨fun hp => ⟨?_, ?_⟩, fun hc => ⟨?_, ?_⟩, fun hm r hr => ?_⟩
  · by_cases hm : env.appModeRaw = some ("real") <;>
      simp [evaluateGate, mkStorage, envLookup, hm, hp, bind, Except.bind, pure, Except.pure]
  · intro r hr
    by_cases hm : env.appModeRaw = some ("real")
    · by_cases hc2 : toBool env.reqCloseoutRaw true
      · cases hcy : cf y with
        | error e =>
          simp [evaluateGate, mkStorage, envLookup, hm, hp, hc2, hcy,
            bind, Except.bind, pure, Except.pure] at hr
        | ok cd =>
          simp [evaluateGate, mkStorage, envLookup, hm, hp, hc2, hcy,
            bind, Except.bind, pure, Except.pure] at hr
          simp [← hr]
      · simp [evaluateGate, mkStorage, envLookup, hm, hp, hc2,
          bind, Except.bind, pure, Except.pure] at hr
        simp [← hr]
    · simp [evaluateGate, mkStorage, envLookup, hm,
        bind, Except.bind, pure, Except.pure] at hr
      simp [← hr]
  · by_cases hm : env.appModeRaw = some ("real") <;>
      by_cases hp2 : toBool env.reqPlanRaw true <;>
        simp [evaluateGate, mkStorage, envLookup, hm, hc, hp2,
          bind, Except.bind, pure, Except.pure]
  · intro r hr
    by_cases hm : env.appModeRaw = some ("real")
    · by_cases hp2 : toBool env.reqPlanRaw true
      · cases hpt : pf t with
        | error e =>
          simp [evaluateGate, mkStorage, envLookup, hm, hc, hp2, hpt,
            bind, Except.bind, pure, Except.pure] at hr
        | ok pd =>
          simp [evaluateGate, mkStorage, envLookup, hm, hc, hp2, hpt,
            bind, Except.bind, pure, Except.pure] at hr
          simp [← hr]
      · simp [evaluateGate, mkStorage, envLookup, hm, hc, hp2,
          bind, Except.bind, pure, Except.pure] at hr
        simp [← hr]
    · simp [evaluateGate, mkStorage, envLookup, hm,
        bind, Except.bind, pure, Except.pure] at hr
      simp [← hr]
  · simp [evaluateGate, mkStorage, envLookup, hm,
      bind, Except.bind, pure, Except.pure] at hr
    simp [← hr]

/-- Real-mode environment with both requirement flags stored as `"0"`
(disabled) and no plan/closeout rows, for the C10 witness. -/
def envReqOff : GateEnv :=
  { appModeRaw := some ("real")
    overrideUntilRaw := some ("0")
    overrideCooldownRaw := some ("0")
    maxTradesRaw := some ("3")
    maxLossRaw := some ("2")
    maxConsecRaw := some ("2")
    reqPlanRaw := some ("0")
    reqCloseoutRaw := some ("0")
    stats := fun _ => { tradeCount := 0, sumR := 0, consecutiveLosses := 0,
                        wins := 0, winRate := 0, avgR := 0, totalR := 0 }
    planExists := fun _ => false
    closeoutExists := fun _ => false }

theorem requirements_reflect_flags_witness :
    (gateSpec envReqOff 0 ("2025-01-02") ("2025-01-01")).requirements.planDone = true ∧
    (gateSpec envReqOff 0 ("2025-01-02") ("2025-01-01")).requirements.closeoutDone = true :=
  ⟨((requirements_reflect_flags envReqOff
        (fun k => Except.ok (envReqOff.planExists k)) (fun k => Except.ok (envReqOff.planExists k))
        (fun k => Except.ok (envReqOff.closeoutExists k))
        (fun k => Except.ok (envReqOff.closeoutExists k)) 0 ("2025-01-02") ("2025-01-01")).1
      (by decide)).2 (gateSpec envReqOff 0 ("2025-01-02") ("2025-01-01"))
      (evaluateGate_okStorage envReqOff 0 ("2025-01-02") ("2025-01-01")),
   ((requirements_reflect_flags envReqOff
        (fun k => Except.ok (envReqOff.planExists k)) (fun k => Except.ok (envReqOff.planExists k))
        (fun k => Except.ok (envReqOff.closeoutExists k))
        (fun k => Except.ok (envReqOff.closeoutExists k)) 0 ("2025-01-02") ("2025-01-01")).2.1
      (by decide)).2 (gateSpec envReqOff 0 ("2025-01-02") ("2025-01-01"))
      (evaluateGate_okStorage envReqOff 0 ("2025-01-02") ("2025-01-01"))⟩

theorem bind_ok_inv {α β : Type} {x : Except Err α} {f : α → Except Err β} {b : β}
    (h : (x >>= f) = Except.ok b) : ∃ a, x = Except.ok a ∧ f a = Except.ok b := by
  cases x with
  | error e => simp [bind, Except.bind] at h
  | ok a => exact ⟨a, rfl, by simpa [bind, Except.bind] using h⟩

/-- C8: a successful gate evaluation certifies that every storage read it
performed succeeded — all eight settings keys, today's stats, and (in real
mode, when the corresponding requirement flag is set) the plan and closeout
lookups.  Contrapositive: if any performed read fails, `evaluateGate` cannot
return a result, so it never substitutes a permissive default for a failed
read. -/
theorem evaluateGate_propagates (st : Storage) (now : ℚ) (t y : String) (r : GateResult)
    (h : evaluateGate st now t y = Except.ok r) :
    (∀ k ∈ gateSettingKeys, ∃ v, st.getSetting k = Except.ok v) ∧
    (∃ s, st.getTradeStatsForDay t = Except.ok s) ∧
    (r.mode = Mode.real → r.settings.requireDailyPlan = true →
      ∃ b, st.hasDailyPlan t = Except.ok b) ∧
    (r.mode = Mode.real → r.settings.requireDailyCloseout = true →
      ∃ b, st.hasDailyCloseout y = Except.ok b) := by
  unfold evaluateGate at h
  obtain ⟨a1, h1, h⟩ := bind_ok_inv h
  obtain ⟨a2, h2, h⟩ := bind_ok_inv h
  obtain ⟨a3, h3, h⟩ := bind_ok_inv h
  obtain ⟨a4, h4, h⟩ := bind_ok_inv h
  obtain ⟨a5, h5, h⟩ := bind_ok_inv h
  obtain ⟨a6, h6, h⟩ := bind_ok_inv h
  obtain ⟨a7, h7, h⟩ := bind_ok_inv h
  obtain ⟨a8, h8, h⟩ := bind_ok_inv h
  obtain ⟨s0, hs, h⟩ := bind_ok_inv h
  have hkeys : ∀ k ∈ gateSettingKeys, ∃ v, st.getSetting k = Except.ok v := by
    intro k hk
    simp [gateSettingKeys] at hk
    rcases hk with rfl | rfl | rfl | rfl | rfl | rfl | rfl | rfl
    exacts [⟨a1, h1⟩, ⟨a2, h2⟩, ⟨a3, h3⟩, ⟨a4, h4⟩, ⟨a5, h5⟩, ⟨a6, h6⟩, ⟨a7, h7⟩, ⟨a8, h8⟩]
  by_cases hm : a1 = some ("real")
  · by_cases hp : toBool a7 true = true <;> by_cases hc : toBool a8 true = true
    · simp only [hm] at h
      simp [hp, hc] at h
      obtain ⟨pd, hpd, h⟩ := bind_ok_inv h
      obtain ⟨cd, hcd, h⟩ := bind_ok_inv h
      exact ⟨hkeys, ⟨s0, hs⟩, fun _ _ => ⟨pd, hpd⟩, fun _ _ => ⟨cd, hcd⟩⟩
    · simp only [hm] at h
      simp [hp, hc] at h
      obtain ⟨pd, hpd, h⟩ := bind_ok_inv h
      injection h with h
      subst h
      refine ⟨hkeys, ⟨s0, hs⟩, fun _ _ => ⟨pd, hpd⟩, fun _ hreq => ?_⟩
      simp at hreq
    · simp only [hm] at h
      simp [hp, hc] at h
      obtain ⟨cd, hcd, h⟩ := bind_ok_inv h
      injection h with h
      subst h
      refine ⟨hkeys, ⟨s0, hs⟩, fun _ hreq => ?_, fun _ _ => ⟨cd, hcd⟩⟩
      simp at hreq
    · simp only [hm] at h
      simp [hp, hc] at h
      injection h with h
      subst h
      refine ⟨hkeys, ⟨s0, hs⟩, fun _ hreq => ?_, fun _ hreq => ?_⟩
      · simp at hreq
      · simp at hreq
  · simp [hm] at h
    injection h with h
    subst h
    refine ⟨hkeys, ⟨s0, hs⟩, fun hmode _ => ?_, fun hmode _ => ?_⟩ <;> simp at hmode

theorem evaluateGate_propagates_witness :
    (∀ k ∈ gateSettingKeys, ∃ v, (okStorage envRealSoft).getSetting k = Except.ok v) ∧
    (∃ s, (okStorage envRealSoft).getTradeStatsForDay ("2025-01-02") = Except.ok s) ∧
    ((gateSpec envRealSoft 9 ("2025-01-02") ("2025-01-01")).mode = Mode.real →
      (gateSpec envRealSoft 9 ("2025-01-02") ("2025-01-01")).settings.requireDailyPlan = true →
      ∃ b, (okStorage envRealSoft).hasDailyPlan ("2025-01-02") = Except.ok b) ∧
    ((gateSpec envRealSoft 9 ("2025-01-02") ("2025-01-01")).mode = Mode.real →
      (gateSpec envRealSoft 9 ("2025-01-02") ("2025-01-01")).settings.requireDailyCloseout = true →
      ∃ b, (okStorage envRealSoft).hasDailyCloseout ("2025-01-01") = Except.ok b) :=
  evaluateGate_propagates (okStorage envRealSoft) 9 ("2025-01-02") ("2025-01-01")
    (gateSpec envRealSoft 9 ("2025-01-02") ("2025-01-01"))
    (evaluateGate_okStorage envRealSoft 9 ("2025-01-02") ("2025-01-01"))

/-- C7: `sumR` is the arithmetic, order-independent sum of `resultR` over
the trades whose creation timestamp lies in `[startMs, endMs)`;
`consecutiveLosses` is the length of the run of negative results at the
front of the day's trades ordered by creation time descending, scanning at
most the 50 most recent; `wins` counts strictly positive results and
`winRate` is `wins / tradeCount` when `tradeCount > 0` and `0` otherwise
(total over `ℚ`, no NaN). -/
theorem tradeStats_spec (db db2 : List Trade) (startMs endMs : Int)
    (hperm : db.Perm db2) :
    (getTradeStatsForDay db startMs endMs).sumR =
      ((db.filter (inWindow startMs endMs)).map Trade.resultR).sum ∧
    (getTradeStatsForDay db startMs endMs).sumR =
      (getTradeStatsForDay db2 startMs endMs).sumR ∧
    (getTradeStatsForDay db startMs endMs).consecutiveLosses =
      (((sortByCreatedDesc (db.filter (inWindow startMs endMs))).take 50).takeWhile
        (fun tr => decide (tr.resultR < 0))).length ∧
    (getTradeStatsForDay db startMs endMs).wins =
      ((db.filter (inWindow startMs endMs)).filter (fun tr => decide (0 < tr.resultR))).length ∧
    (getTradeStatsForDay db startMs endMs).winRate =
      (if 0 < (getTradeStatsForDay db startMs endMs).tradeCount
        then ((getTradeStatsForDay db startMs endMs).wins : ℚ) /
          ((getTradeStatsForDay db startMs endMs).tradeCount : ℚ)
        else 0) := by
  refine ⟨rfl, ?_, rfl, rfl, rfl⟩
  simp only [getTradeStatsForDay]
  exact List.Perm.sum_eq (((hperm.filter (inWindow startMs endMs)).map Trade.resultR))

theorem tradeStats_spec_witness :
    (getTradeStatsForDay [⟨5, -1⟩, ⟨1, 2⟩, ⟨3, -3⟩] 0 10).sumR =
      ((([⟨5, -1⟩, ⟨1, 2⟩, ⟨3, -3⟩] : List Trade).filter (inWindow 0 10)).map
        Trade.resultR).sum ∧
    (getTradeStatsForDay [⟨5, -1⟩, ⟨1, 2⟩, ⟨3, -3⟩] 0 10).sumR =
      (getTradeStatsForDay [⟨3, -3⟩, ⟨5, -1⟩, ⟨1, 2⟩] 0 10).sumR ∧
    (getTradeStatsForDay [⟨5, -1⟩, ⟨1, 2⟩, ⟨3, -3⟩] 0 10).consecutiveLosses =
      (((sortByCreatedDesc (([⟨5, -1⟩, ⟨1, 2⟩, ⟨3, -3⟩] : List Trade).filter
        (inWindow 0 10))).take 50).takeWhile (fun tr => decide (tr.resultR < 0))).length ∧
    (getTradeStatsForDay [⟨5, -1⟩, ⟨1, 2⟩, ⟨3, -3⟩] 0 10).wins =
      ((([⟨5, -1⟩, ⟨1, 2⟩, ⟨3, -3⟩] : List Trade).filter (inWindow 0 10)).filter
        (fun tr => decide (0 < tr.resultR))).length ∧
    (getTradeStatsForDay [⟨5, -1⟩, ⟨1, 2⟩, ⟨3, -3⟩] 0 10).winRate =
      (if 0 < (getTradeStatsForDay [⟨5, -1⟩, ⟨1, 2⟩, ⟨3, -3⟩] 0 10).tradeCount
        then ((getTradeStatsForDay [⟨5, -1⟩, ⟨1, 2⟩, ⟨3, -3⟩] 0 10).wins : ℚ) /
          ((getTradeStatsForDay [⟨5, -1⟩, ⟨1, 2⟩, ⟨3, -3⟩] 0 10).tradeCount : ℚ)
        else 0) :=
  tradeStats_spec [⟨5, -1⟩, ⟨1, 2⟩, ⟨3, -3⟩] [⟨3, -3⟩, ⟨5, -1⟩, ⟨1, 2⟩] 0 10 (by decide)

end RiskGate

namespace RuleBreaks

open RuleBreakCode

theorem splitOnComma_ne_nil (s : List Char) : splitOnComma s ≠ [] := by
  induction s with
  | nil => simp [splitOnComma]
  | cons c cs ih =>
    by_cases hc : c = ','
    · simp [splitOnComma, hc]
    · simp only [splitOnComma, if_neg hc]
      cases hsp : splitOnComma cs <;> simp

theorem splitOnComma_append (x r : List Char) (hx : ∀ c ∈ x, c ≠ ',') (p : List Char)
    (ps : List (List Char)) (hr : splitOnComma r = p :: ps) :
    splitOnComma (x ++ r) = (x ++ p) :: ps := by
  induction x with
  | nil => simpa using hr
  | cons c cs ih =>
    have hc : c ≠ ',' := hx c (by simp)
    have ih2 := ih (fun d hd => hx d (by simp [hd]))
    simp [List.cons_append, splitOnComma, if_neg hc, ih2]

theorem splitOnComma_joinComma (l : List (List Char)) (hne : l ≠ [])
    (hcf : ∀ x ∈ l, ∀ c ∈ x, c ≠ ',') :
    splitOnComma (joinComma l) = l := by
  induction l with
  | nil => exact absurd rfl hne
  | cons x xs ih =>
    cases xs with
    | nil =>
      have h2 := splitOnComma_append x [] (hcf x (by simp)) [] [] rfl
      simpa [joinComma] using h2
    | cons y ys =>
      have ihr := ih (by simp) (fun z hz => hcf z (by simp [hz]))
      have hsplit : splitOnComma (',' :: joinComma (y :: ys)) = [] :: (y :: ys) := by
        simp [splitOnComma, ihr]
      have h2 := splitOnComma_append x (',' :: joinComma (y :: ys)) (hcf x (by simp))
        [] (y :: ys) hsplit
      simpa [joinComma] using h2

theorem mem_dedupeLoop {α : Type} [DecidableEq α] (seen l : List α) (a : α) :
    a ∈ dedupeLoop seen l ↔ a ∈ l ∧ a ∉ seen := by
  induction l generalizing seen with
  | nil => simp [dedupeLoop]
  | cons b rest ih =>
    by_cases hb : b ∈ seen
    · rw [dedupeLoop, if_pos hb, ih]
      constructor
      · rintro ⟨ha, hs⟩
        exact ⟨List.mem_cons_of_mem b ha, hs⟩
      · rintro ⟨hab, hs⟩
        rcases List.mem_cons.mp hab with rfl | ha
        · exact absurd hb hs
        · exact ⟨ha, hs⟩
    · rw [dedupeLoop, if_neg hb]
      simp only [List.mem_cons, ih]
      constructor
      · rintro (rfl | ⟨ha, hs⟩)
        · exact ⟨Or.inl rfl, hb⟩
        · exact ⟨Or.inr ha, fun hsa => hs (Or.inr hsa)⟩
      · rintro ⟨hab, hs⟩
        by_cases hba : a = b
        · exact Or.inl hba
        · rcases hab with rfl | ha
          · exact Or.inl rfl
          · exact Or.inr ⟨ha, by simp [hba, hs]⟩

theorem nodup_dedupeLoop {α : Type} [DecidableEq α] (seen l : List α) :
    (dedupeLoop seen l).Nodup := by
  induction l generalizing seen with
  | nil => simp [dedupeLoop]
  | cons b rest ih =>
    by_cases hb : b ∈ seen
    · rw [dedupeLoop, if_pos hb]
      exact ih seen
    · rw [dedupeLoop, if_neg hb]
      refine List.Nodup.cons ?_ (ih (b :: seen))
      intro hmem
      exact ((mem_dedupeLoop (b :: seen) rest b).mp hmem).2 (by simp)

theorem dedupeLoop_eq_self {α : Type} [DecidableEq α] (seen l : List α) (hl : l.Nodup)
    (hdisj : ∀ a ∈ l, a ∉ seen) : dedupeLoop seen l = l := by
  induction l generalizing seen with
  | nil => rfl
  | cons b rest ih =>
    rw [dedupeLoop, if_neg (hdisj b (by simp))]
    congr 1
    refine ih (b :: seen) ((List.nodup_cons.mp hl).2) ?_
    intro a ha
    simp only [List.mem_cons, not_or]
    exact ⟨fun hab => (List.nodup_cons.mp hl).1 (hab ▸ ha), hdisj a (by simp [ha])⟩

theorem dedupeLoop_sublist {α : Type} [DecidableEq α] (seen l : List α) :
    (dedupeLoop seen l).Sublist l := by
  induction l generalizing seen with
  | nil => simp [dedupeLoop]
  | cons b rest ih =>
    by_cases hb : b ∈ seen
    · rw [dedupeLoop, if_pos hb]
      exact (ih seen).cons b
    · rw [dedupeLoop, if_neg hb]
      exact (ih (b :: seen)).cons₂ b

theorem nodup_dedupFirst {α : Type} [DecidableEq α] (l : List α) : (dedupFirst l).Nodup :=
  nodup_dedupeLoop [] l

theorem dedupFirst_eq_self {α : Type} [DecidableEq α] (l : List α) (hl : l.Nodup) :
    dedupFirst l = l :=
  dedupeLoop_eq_self [] l hl (by simp)

theorem codeStr_ne_nil : ∀ c : RuleBreakCode, codeStr c ≠ [] := by
  intro c
  cases c <;> decide

theorem codeStr_comma_free : ∀ c : RuleBreakCode, ∀ ch ∈ codeStr c, ch ≠ ',' := by
  intro c
  cases c <;> decide

theorem trim_codeStr : ∀ c : RuleBreakCode, trimChars (codeStr c) = codeStr c := by
  intro c
  cases c <;> decide

theorem normalize_codeStr : ∀ c : RuleBreakCode, normalizeRuleBreak (codeStr c) = c := by
  intro c
  cases c <;> decide

theorem map_normalize_codeStr (l : List RuleBreakCode) :
    l.map (fun c => normalizeRuleBreak (codeStr c)) = l := by
  induction l with
  | nil => rfl
  | cons c cs ih => simp [normalize_codeStr, ih]

theorem parse_format (codes : List RuleBreakCode) :
    parseRuleBreaks (some (formatRuleBreaks codes)) = dedupFirst codes := by
  have hfmt : formatRuleBreaks codes = joinComma ((dedupFirst codes).map codeStr) := by
    rw [formatRuleBreaks, map_normalize_codeStr]
  rw [hfmt]
  cases hL : dedupFirst codes with
  | nil => simp [parseRuleBreaks, joinComma]
  | cons c0 rest =>
    have hnodup : (c0 :: rest).Nodup := hL ▸ nodup_dedupFirst codes
    have hcf : ∀ x ∈ (c0 :: rest).map codeStr, ∀ ch ∈ x, ch ≠ ',' := by
      rintro x hx
      rcases List.mem_map.mp hx with ⟨c, _, rfl⟩
      exact codeStr_comma_free c
    have hsplit := splitOnComma_joinComma ((c0 :: rest).map codeStr) (by simp) hcf
    have hne : joinComma ((c0 :: rest).map codeStr) ≠ [] := by
      intro hz
      rw [hz] at hsplit
      simp [splitOnComma] at hsplit
      exact codeStr_ne_nil c0 hsplit.1
    rw [parseRuleBreaks, if_neg hne, hsplit]
    have htrim : ((c0 :: rest).map codeStr).map trimChars = (c0 :: rest).map codeStr := by
      simp [List.map_map, Function.comp, trim_codeStr]
    rw [htrim]
    have hfil : ((c0 :: rest).map codeStr).filter (fun p => p ≠ []) =
        (c0 :: rest).map codeStr := by
      rw [List.filter_eq_self]
      rintro x hx
      rcases List.mem_map.mp hx with ⟨c, _, rfl⟩
      simp [codeStr_ne_nil c]
    rw [hfil]
    have hnorm : ((c0 :: rest).map codeStr).map normalizeRuleBreak = c0 :: rest := by
      rw [List.map_map]
      exact map_normalize_codeStr (c0 :: rest)
    show dedupFirst (((c0 :: rest).map codeStr).map normalizeRuleBreak) = c0 :: rest
    rw [hnorm]
    exact dedupFirst_eq_self (c0 :: rest) hnodup

/-- C9: parsing returns only codes of the closed nine-code enumeration (the
return type), normalizes legacy spellings case-insensitively, maps empty and
unrecognized entries to `OTHER`, removes duplicates preserving first-seen
order, and the format/parse pair round-trips to the normalized,
de-duplicated code list. -/
theorem ruleBreaks_roundtrip (codes : List RuleBreakCode) (csv : Option (List Char)) :
    parseRuleBreaks (some (formatRuleBreaks codes)) =
      dedupFirst (codes.map (fun c => normalizeRuleBreak (codeStr c))) ∧
    (parseRuleBreaks csv).Nodup ∧
    (∀ l : List RuleBreakCode, (dedupFirst l).Sublist l) ∧
    (∀ c : RuleBreakCode, normalizeRuleBreak ((codeStr c).map Char.toLower) = c) ∧
    normalizeRuleBreak [] = OTHER ∧
    normalizeRuleBreak (("bogus").toList) = OTHER ∧
    normalizeRuleBreak (("plan_miss").toList) = PLAN_MISSING ∧
    normalizeRuleBreak (("  Override_Active ").toList) = OVERRIDE_USED := by
  refine ⟨?_, ?_, ?_, ?_, by decide, by decide, by decide, by decide⟩
  · rw [map_normalize_codeStr]
    exact parse_format codes
  · cases csv with
    | none => simp [parseRuleBreaks]
    | some s =>
      by_cases hs : s = []
      · simp [parseRuleBreaks, hs]
      · rw [parseRuleBreaks, if_neg hs]
        exact nodup_dedupFirst _
  · intro l
    exact dedupeLoop_sublist [] l
  · intro c
    cases c <;> decide

end RuleBreaks
